import Mathlib

/-!
Verification development for the chipper build pipeline
(src/js/grunt/buildRunnable.js, src/js/grunt/minify.js, src/js/transpile).

The JavaScript sources are shallowly embedded as pure Lean functions.
External collaborators (the uglify-es compressor, babel transpiler, grunt
file system, module bundler, string-map resolver, packaging steps, ...)
are modelled as fields of an explicit environment record `Env`; the
orchestrator `buildRunnable` is a pure function of the environment and the
request, returning the ordered list of files written plus an optional
fatal error (JavaScript exceptions abort the build, leaving earlier writes
in place; in this program every fatal throw happens before the first
write).
-/

/-! ## JavaScript string primitives

`String.prototype.replace(searchString, replacement)` replaces only the
FIRST occurrence of `searchString` (for `$`-free replacements, which is
the only way the sources use it).  `String.prototype.split(sep)` for a
one-character separator, and `indexOf`/`substring` as used for the build
timestamp, are modelled below with structural recursion over character
lists so that everything evaluates by `decide`.
-/

/-- Replace the first occurrence of `pat` in the list by `repl`
(JavaScript `replace` semantics for a string pattern). -/
def replaceFirstAux (pat repl : List Char) : List Char → List Char
  | [] => []
  | c :: rest =>
    if pat.isPrefixOf (c :: rest) then repl ++ List.drop pat.length (c :: rest)
    else c :: replaceFirstAux pat repl rest

/-- JavaScript `s.replace(pat, repl)` for a plain (non-regex, `$`-free)
pattern: first occurrence only. -/
def jsReplaceFirst (pat repl s : String) : String :=
  String.mk (replaceFirstAux pat.data repl.data s.data)

/-- Fuel-bounded replacement of every occurrence of `pat` by `repl`
(models ChipperStringUtils.replaceAll, which is not under src/; used only
for the a11y-view template substitution). -/
def replaceAllFuel (pat repl : List Char) : Nat → List Char → List Char
  | 0, l => l
  | _ + 1, [] => []
  | fuel + 1, c :: rest =>
    if pat.isPrefixOf (c :: rest) then
      repl ++ replaceAllFuel pat repl fuel (List.drop pat.length (c :: rest))
    else c :: replaceAllFuel pat repl fuel rest

/-- Replace every occurrence of `pat` by `repl`. -/
def jsReplaceAll (pat repl s : String) : String :=
  String.mk (replaceAllFuel pat.data repl.data s.data.length s.data)

/-- Split on a one-character separator, JavaScript `split` semantics
(the empty string splits to `[""]`). -/
def splitCharAux (sep : Char) : List Char → List Char → List (List Char)
  | [], acc => [acc.reverse]
  | c :: rest, acc =>
    if c = sep then acc.reverse :: splitCharAux sep rest []
    else splitCharAux sep rest (c :: acc)

/-- JavaScript `s.split(sep)` for a one-character separator string. -/
def jsSplitChar (sep : Char) (s : String) : List String :=
  (splitCharAux sep s.data []).map String.mk

/-!
Build timestamp, from buildRunnable.js:
  let timestamp = new Date().toISOString().split( 'T' ).join( ' ' );
  timestamp = timestamp.substring( 0, timestamp.indexOf( '.' ) ) + ' UTC';
(`substring(0, -1)` is the empty string when `indexOf` misses.)
-/
def makeTimestamp (iso : String) : String :=
  let t := String.intercalate " " (jsSplitChar 'T' iso)
  let t2 := match t.data.findIdx? (fun c => c = '.') with
    | some i => String.mk (t.data.take i)
    | none => ""
  t2 ++ " UTC"

/-! ## The Code Compressor (src/js/grunt/minify.js) -/

/-- The options object accepted by minify.js, with its defaults. -/
structure MinifyOptions where
  mangle : Bool := true
  babelTranspile : Bool := false
  stripAssertions : Bool := true
  stripLogging : Bool := true
deriving DecidableEq

/-- The `mangle` sub-object handed to uglify-es when mangling is on. -/
structure UglifyMangleOptions where
  safari10 : Bool
deriving DecidableEq

/-- The configuration object minify.js hands to `uglify.minify`. -/
structure UglifyConfig where
  mangle : Option UglifyMangleOptions
  compress_dead_code : Bool
  compress_global_defs : List (String × Bool)
  output_inline_script : Bool
  output_beautify : Bool
deriving DecidableEq

/-- The result object returned by the external `uglify.minify`. -/
structure UglifyResult where
  error : Option String
  code : String
deriving DecidableEq

/-- The uglify-es configuration minify.js builds from the options: mangling
(with the safari10 workaround) iff `mangle`, dead-code removal, the
global_defs accumulated from the two strip flags, and beautified output
iff not mangling. -/
def minifyConfig (options : MinifyOptions) : UglifyConfig :=
  { mangle := if options.mangle then some { safari10 := true } else none
    compress_dead_code := true
    compress_global_defs :=
      (if options.stripAssertions then [("assert", false), ("assertSlow", false)] else []) ++
      (if options.stripLogging then [("sceneryLog", false), ("sceneryAccessibilityLog", false)] else [])
    output_inline_script := true
    output_beautify := !options.mangle }

/-- src/js/grunt/minify.js: optionally transpile, run the external
compressor, throw its error if any, otherwise apply the textual U+000B
post-fix (a first-occurrence `replace`) to the compressed code. -/
def minify (uglifyMinify : String → UglifyConfig → UglifyResult)
    (transpileFn : String → String) (js : String) (options : MinifyOptions) :
    Except String String :=
  let js2 := if options.babelTranspile then transpileFn js else js
  let result := uglifyMinify js2 (minifyConfig options)
  match result.error with
  | some e => Except.error e
  | none => Except.ok (jsReplaceFirst "\x0B" "\\x0B" result.code)

/-! ## Shared constants

ChipperConstants lives in js/common/ChipperConstants.js, which is not
under src/; the values below are modelled from the spec (fixed enumerated
brand set with a non-restricted default 'phet' and a restricted 'phet-io';
English fallback locale) and from how buildRunnable.js uses them. -/

namespace ChipperConstants

/-- Modelled from the spec: the fixed enumerated set of distribution
variants ("brands"); 'phet' is the non-restricted default and 'phet-io'
the restricted/proprietary variant. -/
def BRANDS : List String := ["phet", "phet-io", "adapted-from-phet"]

/-- Modelled from the spec: the fallback locale, English. -/
def FALLBACK_LOCALE : String := "en"

/-- Modelled from the spec: suffix of the accessibility-viewer artifact. -/
def A11Y_VIEW_HTML_SUFFIX : String := "_a11y_view.html"

end ChipperConstants

/-! ## Data model for the Build Orchestrator -/

/-- The positional parameter list of buildRunnable.js as one record.
The JavaScript `typeof` asserts on `repo`, `uglify` and `mangle` hold by
construction in this typed embedding. -/
structure BuildRequest where
  repo : String
  uglify : Bool
  mangle : Bool
  instrument : Bool
  allHTML : Bool
  brand : String
  localesOption : String
deriving DecidableEq

/-- The `phet` sub-object of package.json, the fields buildRunnable.js
reads. -/
structure PhetPackage where
  requirejsNamespace : String
  accessible : Bool
deriving DecidableEq

/-- The package.json object, the fields buildRunnable.js reads. -/
structure PackageObject where
  phet : PhetPackage
  version : String
deriving DecidableEq

/-- The options object handed to the external requireBuild collaborator. -/
structure RequireBuildOptions where
  insertRequire : String
  instrument : Bool
  brand : String
deriving DecidableEq

/-- Locale → (string key → localized text), as nested association lists. -/
abbrev StringMap := List (String × List (String × String))

/-- JavaScript `stringMap[locale][key]` (returns none when either level misses;
in JavaScript a missing locale makes the subsequent truthiness assert
fail — both paths abort the build before any file is written). -/
def lookupString (m : StringMap) (locale key : String) : Option String :=
  match List.lookup locale m with
  | none => none
  | some table => List.lookup key table

/-- Metadata handed to getInitializationScript: the artifact-specific
locale/debug flags extended with the build-wide common options. -/
structure InitializationOptions where
  locale : String
  includeAllLocales : Bool
  isDebugBuild : Bool
  brand : String
  repo : String
  stringMap : StringMap
  dependencies : String
  timestamp : String
  version : String
  thirdPartyEntries : String
deriving DecidableEq

/-- One auxiliary script fragment of a composed artifact.  In the source
every fragment is a plain string; the initialization script is produced by
the getInitializationScript collaborator (not under src/), modelled from
the spec as a fragment carrying its metadata so that every
initialization-data field the spec names is visible in the artifact. -/
inductive Script where
  | init (opts : InitializationOptions) : Script
  | text (code : String) : Script
deriving DecidableEq

/-- The object handed to the external packageRunnable packaging step. -/
structure PackageRunnableConfig where
  repo : String
  stringMap : StringMap
  htmlHeader : String
  locale : String
  scripts : List Script
deriving DecidableEq

/-- The object handed to the external packageXHTML packaging step. -/
structure XHTMLConfig where
  repo : String
  brand : String
  stringMap : StringMap
  htmlHeader : String
  scripts : List Script
deriving DecidableEq

/-- What is materialized at an output path: a created directory, data
handed to a packaging step (whose deterministic rendering is the final
byte content), or plain text/image bytes. -/
inductive FileContent where
  | directory : FileContent
  | runnableHtml (cfg : PackageRunnableConfig) : FileContent
  | xhtmlBundle (cfg : XHTMLConfig) : FileContent
  | rawText (contents : String) : FileContent
  | png (bytes : String) : FileContent
deriving DecidableEq

/-- An output path together with what is written there, in write order. -/
abbrev WrittenFile := String × FileContent

/-- A fatal build abort: a failed `assert`, or a thrown compressor error
(minify.js re-throws the uglify error detail). -/
inductive BuildError where
  | assertionFailed (msg : String) : BuildError
  | minifyError (msg : String) : BuildError
deriving DecidableEq

/-- The external collaborators and ambient state buildRunnable.js
consumes, as one record of pure functions: the grunt file system, the
module bundler, resolvers, the uglify-es/babel externals and the clock
readings (`new Date().toISOString()` and `grunt.template.today('yyyy')`). -/
structure Env where
  fileExists : String → Bool
  readFile : String → String
  readPackageJSON : String → PackageObject
  nowISO : String
  currentYear : String
  requireBuild : String → String → RequireBuildOptions → String
  uglifyMinify : String → UglifyConfig → UglifyResult
  transpile : String → String
  getPreloads : String → String → List String
  getPhetLibs : String → String → List String
  getLocalesFromRepository : String → List String
  getDependencies : String → String
  jsonStringify : String → String
  getAllThirdPartyEntries : String → String → String
  getStringMap : List String → List String → StringMap
  buildMipmaps : String
  getTitleStringKey : String → String
  htmlEncode : String → String
  loadFileAsDataURI : String → String
  getA11yViewHTMLFromTemplate : String → String
  generateThumbnails : String → Nat → Nat → String
  generateTwitterCard : String → String

/-! ## Build-wide derivations (buildRunnable.js, stages 1-5)

Each definition embeds one binding of buildRunnable.js, in source order. -/

/-- Except-valued map: evaluate `f` left to right, propagating the first
thrown error (JavaScript `Array.prototype.map` under exceptions). -/
def exceptMapM (f : α → Except ε β) : List α → Except ε (List β)
  | [] => Except.ok []
  | a :: rest =>
    match f a with
    | Except.error e => Except.error e
    | Except.ok b =>
      match exceptMapM f rest with
      | Except.error e => Except.error e
      | Except.ok bs => Except.ok (b :: bs)

/-- The raw module bundle: `await requireBuild(repo, `../repo/js/repo-config.js`,
\x7b insertRequire: repo + '-main', instrument, brand \x7d)`. -/
def requireJSOf (env : Env) (r : BuildRequest) : String :=
  env.requireBuild r.repo ("../" ++ r.repo ++ "/js/" ++ r.repo ++ "-config.js")
    { insertRequire := r.repo ++ "-main", instrument := r.instrument, brand := r.brand }

/-- Source: `const productionJS = uglify ? minify( requireJS, \x7b mangle, babelTranspile: true \x7d ) : requireJS;` -/
def productionJSOf (env : Env) (r : BuildRequest) (requireJS : String) : Except String String :=
  if r.uglify then
    minify env.uglifyMinify env.transpile requireJS { mangle := r.mangle, babelTranspile := true }
  else Except.ok requireJS

/-- Source: `const debugJS = brand === 'phet-io' ? minify( requireJS, \x7b mangle: true,
babelTranspile: true, stripAssertions: false, stripLogging: false \x7d ) : requireJS;` -/
def debugJSOf (env : Env) (r : BuildRequest) (requireJS : String) : Except String String :=
  if r.brand == "phet-io" then
    minify env.uglifyMinify env.transpile requireJS
      { mangle := true, babelTranspile := true, stripAssertions := false, stripLogging := false }
  else Except.ok requireJS

/-- Source: `const rawPreloads = getPreloads( repo, brand ).map( filename => grunt.file.read( filename ) );` -/
def rawPreloadsOf (env : Env) (r : BuildRequest) : List String :=
  (env.getPreloads r.repo r.brand).map env.readFile

/-- Source: `const productionPreloads = rawPreloads.map( js => uglify ? minify( js, \x7b mangle \x7d ) : js );` -/
def productionPreloadsOf (env : Env) (r : BuildRequest) (rawPreloads : List String) :
    Except String (List String) :=
  exceptMapM (fun js =>
    if r.uglify then minify env.uglifyMinify env.transpile js { mangle := r.mangle }
    else Except.ok js) rawPreloads

/-- Source: `const debugPreloads = rawPreloads.map( js => brand === 'phet-io' ? minify( js, \x7b mangle: true \x7d ) : js );` -/
def debugPreloadsOf (env : Env) (r : BuildRequest) (rawPreloads : List String) :
    Except String (List String) :=
  exceptMapM (fun js =>
    if r.brand == "phet-io" then minify env.uglifyMinify env.transpile js { mangle := true }
    else Except.ok js) rawPreloads

/-- Source: `const allLocales = [ ChipperConstants.FALLBACK_LOCALE, ...getLocalesFromRepository( repo ) ];` -/
def allLocalesOf (env : Env) (r : BuildRequest) : List String :=
  ChipperConstants.FALLBACK_LOCALE :: env.getLocalesFromRepository r.repo

/-- Source: `const locales = localesOption === '*' ? allLocales : localesOption.split( ',' );` -/
def localesOf (env : Env) (r : BuildRequest) : List String :=
  if r.localesOption == "*" then allLocalesOf env r else jsSplitChar ',' r.localesOption

/-- Source: `const stringMap = getStringMap( allLocales, phetLibs );` -/
def stringMapOf (env : Env) (r : BuildRequest) : StringMap :=
  env.getStringMap (allLocalesOf env r) (env.getPhetLibs r.repo r.brand)

/-- Source: `const simTitleStringKey = getTitleStringKey( repo );` -/
def simTitleStringKeyOf (env : Env) (r : BuildRequest) : String :=
  env.getTitleStringKey r.repo

/-- Source: `const englishTitle = stringMap[ ChipperConstants.FALLBACK_LOCALE ][ simTitleStringKey ];` -/
def englishTitleOf (env : Env) (r : BuildRequest) : Option String :=
  lookupString (stringMapOf env r) ChipperConstants.FALLBACK_LOCALE (simTitleStringKeyOf env r)

/-- The brand-selected HTML comment header (restricted licensed-use banner
for 'phet-io', open-attribution banner otherwise), embedding the resolved
title, version and current year. -/
def htmlHeaderOf (r : BuildRequest) (englishTitle version year : String) : String :=
  if r.brand == "phet-io" then
    englishTitle ++ " " ++ version ++ "\n" ++
    "Copyright 2002-" ++ year ++ ", Regents of the University of Colorado\n" ++
    "PhET Interactive Simulations, University of Colorado Boulder\n" ++
    "\n" ++
    "This Interoperable PhET Simulation file requires a license.\n" ++
    "USE WITHOUT A LICENSE AGREEMENT IS STRICTLY PROHIBITED.\n" ++
    "Contact phethelp@colorado.edu regarding licensing.\n" ++
    "https://phet.colorado.edu/en/licensing"
  else
    englishTitle ++ " " ++ version ++ "\n" ++
    "Copyright 2002-" ++ year ++ ", Regents of the University of Colorado\n" ++
    "PhET Interactive Simulations, University of Colorado Boulder\n" ++
    "\n" ++
    "This file is licensed under Creative Commons Attribution 4.0\n" ++
    "For alternate source code licensing, see https://github.com/phetsims\n" ++
    "For licenses for third-party software used by this simulation, see below\n" ++
    "For more information, see https://phet.colorado.edu/en/licensing/html\n" ++
    "\n" ++
    "The PhET name and PhET logo are registered trademarks of The Regents of the\n" ++
    "University of Colorado. Permission is granted to use the PhET name and PhET logo\n" ++
    "only for attribution purposes. Use of the PhET name and/or PhET logo for promotional,\n" ++
    "marketing, or advertising purposes requires a separate license agreement from the\n" ++
    "University of Colorado. Contact phethelp@colorado.edu regarding licensing."

/-- Source: `const chipperStringsScript = grunt.file.read( '../chipper/templates/chipper-strings.js' );` -/
def chipperStringsScriptOf (env : Env) : String :=
  env.readFile "../chipper/templates/chipper-strings.js"

/-- Source: `const splashScript = `window.PHET_SPLASH_DATA_URI="..."`;` -/
def splashScriptOf (env : Env) (r : BuildRequest) : String :=
  "window.PHET_SPLASH_DATA_URI=\"" ++
    env.loadFileAsDataURI ("../brand/" ++ r.brand ++ "/images/splash.svg") ++ "\";"

/-- Source: `const buildDir = `../$\x7brepo\x7d/build/$\x7bbrand\x7d`;` -/
def buildDirOf (r : BuildRequest) : String :=
  "../" ++ r.repo ++ "/build/" ++ r.brand

/-- The artifact-specific initialization metadata: the (locale,
includeAllLocales, isDebugBuild) triple extended with
commonInitializationOptions. -/
def initOptsOf (env : Env) (r : BuildRequest) (timestamp locale : String)
    (includeAllLocales isDebugBuild : Bool) : InitializationOptions :=
  { locale := locale
    includeAllLocales := includeAllLocales
    isDebugBuild := isDebugBuild
    brand := r.brand
    repo := r.repo
    stringMap := stringMapOf env r
    dependencies := env.getDependencies r.repo
    timestamp := timestamp
    version := (env.readPackageJSON r.repo).version
    thirdPartyEntries := env.getAllThirdPartyEntries r.repo r.brand }

/-- The fixed script order of every composed artifact:
`[ initializationScript, splashScript, mipmapsJavaScript, ...preloads,
chipperStringsScript, js ]`. -/
def scriptsFor (opts : InitializationOptions) (splashScript mipmapsJavaScript : String)
    (preloads : List String) (chipperStringsScript mainJS : String) : List Script :=
  Script.init opts :: Script.text splashScript :: Script.text mipmapsJavaScript ::
    (preloads.map Script.text ++ [Script.text chipperStringsScript, Script.text mainJS])

/-! ## Per-artifact output enumeration (buildRunnable.js, stages 6-7) -/

/-- One `$\x7brepo\x7d_$\x7blocale\x7d_$\x7bbrand\x7d.html` per-locale artifact. -/
def perLocaleFile (env : Env) (r : BuildRequest) (timestamp productionJS : String)
    (productionPreloads : List String) (htmlHeader locale : String) : WrittenFile :=
  (buildDirOf r ++ "/" ++ r.repo ++ "_" ++ locale ++ "_" ++ r.brand ++ ".html",
    FileContent.runnableHtml
      { repo := r.repo
        stringMap := stringMapOf env r
        htmlHeader := htmlHeader
        locale := locale
        scripts := scriptsFor (initOptsOf env r timestamp locale false false)
          (splashScriptOf env r) env.buildMipmaps productionPreloads
          (chipperStringsScriptOf env) productionJS })

/-- The per-locale loop, skipped entirely for brand 'phet-io'. -/
def perLocaleFilesOf (env : Env) (r : BuildRequest) (timestamp productionJS : String)
    (productionPreloads : List String) (htmlHeader : String) : List WrittenFile :=
  if r.brand != "phet-io" then
    (localesOf env r).map
      (perLocaleFile env r timestamp productionJS productionPreloads htmlHeader)
  else []

/-- The combined `_all.html` artifact, produced iff `allHTML` was requested
or the brand is 'phet-io' (forced). -/
def allHTMLFilesOf (env : Env) (r : BuildRequest) (timestamp productionJS : String)
    (productionPreloads : List String) (htmlHeader : String) : List WrittenFile :=
  if r.allHTML || r.brand == "phet-io" then
    [(buildDirOf r ++ "/" ++ r.repo ++ "_all_" ++ r.brand ++ ".html",
      FileContent.runnableHtml
        { repo := r.repo
          stringMap := stringMapOf env r
          htmlHeader := htmlHeader
          locale := ChipperConstants.FALLBACK_LOCALE
          scripts := scriptsFor
            (initOptsOf env r timestamp ChipperConstants.FALLBACK_LOCALE true false)
            (splashScriptOf env r) env.buildMipmaps productionPreloads
            (chipperStringsScriptOf env) productionJS })]
  else []

/-- The always-produced `_all_$\x7bbrand\x7d_debug.html` artifact, using the
debug code artifact, the debug preload fragments, and debug-mode
all-locales initialization metadata. -/
def debugFileOf (env : Env) (r : BuildRequest) (timestamp debugJS : String)
    (debugPreloads : List String) (htmlHeader : String) : WrittenFile :=
  (buildDirOf r ++ "/" ++ r.repo ++ "_all_" ++ r.brand ++ "_debug.html",
    FileContent.runnableHtml
      { repo := r.repo
        stringMap := stringMapOf env r
        htmlHeader := htmlHeader
        locale := ChipperConstants.FALLBACK_LOCALE
        scripts := scriptsFor
          (initOptsOf env r timestamp ChipperConstants.FALLBACK_LOCALE true true)
          (splashScriptOf env r) env.buildMipmaps debugPreloads
          (chipperStringsScriptOf env) debugJS })

/-- The xhtml/ subdirectory plus the ePub-compatible packaging handed to
packageXHTML (production code, non-debug all-locales initialization). -/
def xhtmlFilesOf (env : Env) (r : BuildRequest) (timestamp productionJS : String)
    (productionPreloads : List String) (htmlHeader : String) : List WrittenFile :=
  [(buildDirOf r ++ "/xhtml", FileContent.directory),
   (buildDirOf r ++ "/xhtml",
    FileContent.xhtmlBundle
      { repo := r.repo
        brand := r.brand
        stringMap := stringMapOf env r
        htmlHeader := htmlHeader
        scripts := scriptsFor
          (initOptsOf env r timestamp ChipperConstants.FALLBACK_LOCALE true false)
          (splashScriptOf env r) env.buildMipmaps productionPreloads
          (chipperStringsScriptOf env) productionJS })]

/-- Source: `grunt.file.write( `$\x7bbuildDir\x7d/dependencies.json`, JSON.stringify( dependencies, null, 2 ) );` -/
def dependenciesFileOf (env : Env) (r : BuildRequest) : WrittenFile :=
  (buildDirOf r ++ "/dependencies.json",
    FileContent.rawText (env.jsonStringify (env.getDependencies r.repo)))

/-- The iframe-test wrappers: only when the fallback locale is among the
resolved locales and the brand is 'phet'; for locale 'en' and, when
`allHTML` was requested, also for the synthetic locale 'all'. -/
def iframeFilesOf (env : Env) (r : BuildRequest) : List WrittenFile :=
  if (localesOf env r).contains ChipperConstants.FALLBACK_LOCALE && r.brand == "phet" then
    let englishTitle := (lookupString (stringMapOf env r) ChipperConstants.FALLBACK_LOCALE
      (env.getTitleStringKey r.repo)).getD "undefined"
    let iframeTestHtml :=
      jsReplaceFirst "\x7b\x7bPHET_REPOSITORY\x7d\x7d" r.repo
        (jsReplaceFirst "\x7b\x7bPHET_SIM_TITLE\x7d\x7d"
          (env.htmlEncode (englishTitle ++ " iframe test"))
          (env.readFile "../chipper/templates/sim-iframe.html"))
    (["en"] ++ (if r.allHTML then ["all"] else [])).map (fun locale =>
      (buildDirOf r ++ "/" ++ r.repo ++ "_" ++ locale ++ "_iframe_phet.html",
        FileContent.rawText (jsReplaceFirst "\x7b\x7bPHET_LOCALE\x7d\x7d" locale iframeTestHtml)))
  else []

/-- The accessibility-viewer artifact: only when package.json declares
accessibility and the brand is 'phet'; the template with the built-mode
marker substituted in. -/
def a11yFilesOf (env : Env) (r : BuildRequest) : List WrittenFile :=
  if (env.readPackageJSON r.repo).phet.accessible && r.brand == "phet" then
    [(buildDirOf r ++ "/" ++ r.repo ++ ChipperConstants.A11Y_VIEW_HTML_SUFFIX,
      FileContent.rawText
        (jsReplaceAll "\x7b\x7bIS_BUILT\x7d\x7d" "true" (env.getA11yViewHTMLFromTemplate r.repo)))]
  else []

/-- Thumbnails at the two fixed sizes when a screenshot asset exists, plus
the social-card image for brand 'phet' only. -/
def thumbnailFilesOf (env : Env) (r : BuildRequest) : List WrittenFile :=
  if env.fileExists ("../" ++ r.repo ++ "/assets/" ++ r.repo ++ "-screenshot.png") then
    [(128, 84), (600, 394)].map (fun s =>
      (buildDirOf r ++ "/" ++ r.repo ++ "-" ++ toString s.1 ++ ".png",
        FileContent.png (env.generateThumbnails r.repo s.1 s.2))) ++
    (if r.brand == "phet" then
      [(buildDirOf r ++ "/" ++ r.repo ++ "-twitter-card.png",
        FileContent.png (env.generateTwitterCard r.repo))]
    else [])
  else []

/-- Every file written by a successful build, in the write order of
buildRunnable.js: the build directory, the per-locale artifacts, the
conditional combined artifact, the debug artifact, the xhtml packaging,
dependencies.json, the iframe wrappers, the accessibility viewer and the
thumbnails.  (copySupplementalPhetioFiles copies files outside the build
directory and is not an output of this orchestrator.) -/
def assembleFiles (env : Env) (r : BuildRequest) (timestamp productionJS debugJS : String)
    (productionPreloads debugPreloads : List String) (htmlHeader : String) : List WrittenFile :=
  (buildDirOf r, FileContent.directory) ::
    (perLocaleFilesOf env r timestamp productionJS productionPreloads htmlHeader ++
     allHTMLFilesOf env r timestamp productionJS productionPreloads htmlHeader ++
     [debugFileOf env r timestamp debugJS debugPreloads htmlHeader] ++
     xhtmlFilesOf env r timestamp productionJS productionPreloads htmlHeader ++
     [dependenciesFileOf env r] ++
     iframeFilesOf env r ++
     a11yFilesOf env r ++
     thumbnailFilesOf env r)

/-- The Build Orchestrator, src/js/grunt/buildRunnable.js: the precondition
asserts, the strictly sequential derivation stages (each of which can
abort the whole build with no file written), then the enumeration and
writing of every output artifact. -/
def buildRunnable (env : Env) (r : BuildRequest) : List WrittenFile × Option BuildError :=
  if !(ChipperConstants.BRANDS.contains r.brand) then
    ([], some (BuildError.assertionFailed ("Unknown brand in buildRunnable: " ++ r.brand)))
  else if r.brand == "phet-io" && !(env.fileExists "../phet-io") then
    ([], some (BuildError.assertionFailed
      ("Aborting the build of phet-io brand since proprietary repositories are not checked out.\n" ++
       "Please use --brands==\x7b\x7bBRAND\x7d\x7d in the future to avoid this.")))
  else
    match productionJSOf env r (requireJSOf env r) with
    | Except.error e => ([], some (BuildError.minifyError e))
    | Except.ok productionJS =>
      match debugJSOf env r (requireJSOf env r) with
      | Except.error e => ([], some (BuildError.minifyError e))
      | Except.ok debugJS =>
        match productionPreloadsOf env r (rawPreloadsOf env r) with
        | Except.error e => ([], some (BuildError.minifyError e))
        | Except.ok productionPreloads =>
          match debugPreloadsOf env r (rawPreloadsOf env r) with
          | Except.error e => ([], some (BuildError.minifyError e))
          | Except.ok debugPreloads =>
            match englishTitleOf env r with
            | none => ([], some (BuildError.assertionFailed
                ("missing entry for sim title, key = " ++ simTitleStringKeyOf env r)))
            | some englishTitle =>
              if englishTitle == "" then
                ([], some (BuildError.assertionFailed
                  ("missing entry for sim title, key = " ++ simTitleStringKeyOf env r)))
              else
                (assembleFiles env r (makeTimestamp env.nowISO) productionJS debugJS
                  productionPreloads debugPreloads
                  (htmlHeaderOf r englishTitle (env.readPackageJSON r.repo).version
                    env.currentYear), none)

/-! ## A concrete environment and request for witnesses -/

/-- A small concrete environment under which builds succeed, used to
instantiate the conditional theorems below on explicit inputs. -/
def testEnv : Env :=
  { fileExists := fun _ => true
    readFile := fun _ => "F"
    readPackageJSON := fun _ =>
      { phet := { requirejsNamespace := "NS", accessible := true }, version := "1.0.0" }
    nowISO := "2025-01-02T03:04:05.678Z"
    currentYear := "2025"
    requireBuild := fun _ _ _ => "REQUIREJS"
    uglifyMinify := fun js cfg =>
      { error := none
        code := js ++ (if cfg.compress_global_defs.isEmpty then "+nostrip" else "+strip") }
    transpile := fun js => js
    getPreloads := fun _ _ => ["preload1.js"]
    getPhetLibs := fun _ _ => []
    getLocalesFromRepository := fun _ => []
    getDependencies := fun _ => "DEPS"
    jsonStringify := fun s => s
    getAllThirdPartyEntries := fun _ _ => "TPE"
    getStringMap := fun _ _ => [("en", [("repo.title", "Example Title")])]
    buildMipmaps := "MIPMAPS"
    getTitleStringKey := fun _ => "repo.title"
    htmlEncode := fun s => s
    loadFileAsDataURI := fun _ => "URI"
    getA11yViewHTMLFromTemplate := fun _ => "A11Y"
    generateThumbnails := fun _ _ _ => "PNG"
    generateTwitterCard := fun _ => "CARD" }

/-- A concrete request for the non-restricted default brand. -/
def testReq : BuildRequest :=
  { repo := "repo"
    uglify := false
    mangle := false
    instrument := false
    allHTML := false
    brand := "phet"
    localesOption := "*" }

/-- The test environment with a fallback string table lacking the title
key. -/
def envNoTitle : Env :=
  { testEnv with getStringMap := fun _ _ => [("en", [])] }

/-! ## Clock handling, for the determinism analysis

`new Date().toISOString()` and `grunt.template.today('yyyy')` are the two
clock readings the orchestrator takes; `withClock` overrides them, and the
scrub functions erase, respectively, only the embedded build timestamp, or
the timestamp together with the clock-derived header banner. -/

/-- The environment with the two clock readings overridden. -/
def withClock (env : Env) (nowISO currentYear : String) : Env :=
  { env with nowISO := nowISO, currentYear := currentYear }

/-- Erase the build timestamp from an initialization fragment. -/
def scrubScriptTimestamp : Script → Script
  | Script.init opts => Script.init { opts with timestamp := "" }
  | Script.text code => Script.text code

/-- Erase the embedded build timestamp from an artifact. -/
def scrubContentTimestamp : FileContent → FileContent
  | FileContent.runnableHtml cfg =>
      FileContent.runnableHtml { cfg with scripts := cfg.scripts.map scrubScriptTimestamp }
  | FileContent.xhtmlBundle cfg =>
      FileContent.xhtmlBundle { cfg with scripts := cfg.scripts.map scrubScriptTimestamp }
  | c => c

/-- Erase the embedded build timestamps from a build outcome. -/
def scrubTimestamps (out : List WrittenFile × Option BuildError) :
    List WrittenFile × Option BuildError :=
  (out.1.map (fun f => (f.1, scrubContentTimestamp f.2)), out.2)

/-- Erase the embedded build timestamp and the clock-derived header banner
from an artifact. -/
def scrubContentClock : FileContent → FileContent
  | FileContent.runnableHtml cfg =>
      FileContent.runnableHtml
        { cfg with htmlHeader := "", scripts := cfg.scripts.map scrubScriptTimestamp }
  | FileContent.xhtmlBundle cfg =>
      FileContent.xhtmlBundle
        { cfg with htmlHeader := "", scripts := cfg.scripts.map scrubScriptTimestamp }
  | c => c

/-- Erase all clock-derived data from a build outcome. -/
def scrubClock (out : List WrittenFile × Option BuildError) :
    List WrittenFile × Option BuildError :=
  (out.1.map (fun f => (f.1, scrubContentClock f.2)), out.2)

deriving instance DecidableEq for Except

/-! ## Helper lemmas -/

/-- Mapping the identity success over a list succeeds with the list. -/
theorem exceptMapM_ok_id (l : List α) :
    exceptMapM (fun a => (Except.ok a : Except ε α)) l = Except.ok l := by
  induction l with
  | nil => rfl
  | cons a rest ih => simp [exceptMapM, ih]

/-- Replacing the first occurrence of a character `c` by a `c`-free string
decrements the number of occurrences of `c` (truncated at zero). -/
theorem count_replaceFirstAux_single (c : Char) (repl : List Char) (hc : c ∉ repl) :
    ∀ l : List Char, (replaceFirstAux [c] repl l).count c = l.count c - 1 := by
  intro l
  induction l with
  | nil => simp [replaceFirstAux]
  | cons x rest ih =>
    by_cases hx : c = x
    · subst hx
      simp [replaceFirstAux, List.isPrefixOf, List.count_append,
        List.count_eq_zero.mpr hc, List.count_cons_self]
    · have hbeq : (c == x) = false := by
        simp [hx]
      simp [replaceFirstAux, List.isPrefixOf, hbeq, List.count_cons, Ne.symm hx, ih]

/-- Successful-build inversion: a run that ends without an error passed
every precondition, derived all four compressed artifacts successfully,
found a non-empty fallback title, and wrote exactly the assembled file
list. -/
theorem buildRunnable_ok_inv (env : Env) (r : BuildRequest) (files : List WrittenFile)
    (h : buildRunnable env r = (files, none)) :
    ∃ productionJS debugJS productionPreloads debugPreloads englishTitle,
      productionJSOf env r (requireJSOf env r) = Except.ok productionJS ∧
      debugJSOf env r (requireJSOf env r) = Except.ok debugJS ∧
      productionPreloadsOf env r (rawPreloadsOf env r) = Except.ok productionPreloads ∧
      debugPreloadsOf env r (rawPreloadsOf env r) = Except.ok debugPreloads ∧
      englishTitleOf env r = some englishTitle ∧
      (englishTitle == "") = false ∧
      ChipperConstants.BRANDS.contains r.brand = true ∧
      (r.brand == "phet-io" && !(env.fileExists "../phet-io")) = false ∧
      files = assembleFiles env r (makeTimestamp env.nowISO) productionJS debugJS
        productionPreloads debugPreloads
        (htmlHeaderOf r englishTitle (env.readPackageJSON r.repo).version env.currentYear) := by
  unfold buildRunnable at h
  split at h
  · simp at h
  · rename_i hbrand
    split at h
    · simp at h
    · rename_i hio
      split at h <;> try simp at h
      rename_i productionJS hpJS
      split at h <;> try simp at h
      rename_i debugJS hdJS
      split at h <;> try simp at h
      rename_i productionPreloads hpPre
      split at h <;> try simp at h
      rename_i debugPreloads hdPre
      split at h <;> try simp at h
      rename_i englishTitle htitle
      split at h
      · simp at h
      · rename_i hne
        have hcontains : ChipperConstants.BRANDS.contains r.brand = true := by
          simpa using hbrand
        have hiofalse : (r.brand == "phet-io" && !(env.fileExists "../phet-io")) = false := by
          simpa using hio
        have hnefalse : (englishTitle == "") = false := by
          simpa using hne
        refine ⟨productionJS, debugJS, productionPreloads, debugPreloads, englishTitle,
          hpJS, hdJS, hpPre, hdPre, htitle, hnefalse, hcontains, hiofalse, ?_⟩
        have := congrArg Prod.fst h
        simpa using this.symm

/-- Error inversion: a run that ends with an error writes nothing. -/
theorem buildRunnable_error_inv (env : Env) (r : BuildRequest) (files : List WrittenFile)
    (e : BuildError) (h : buildRunnable env r = (files, some e)) : files = [] := by
  unfold buildRunnable at h
  split at h <;> try simpa using congrArg Prod.fst h
  split at h <;> try simpa using congrArg Prod.fst h
  split at h <;> try simpa using congrArg Prod.fst h
  split at h <;> try simpa using congrArg Prod.fst h
  split at h <;> try simpa using congrArg Prod.fst h
  split at h <;> try simpa using congrArg Prod.fst h
  split at h <;> try simpa using congrArg Prod.fst h
  split at h
  · simpa using congrArg Prod.fst h
  · simpa using congrArg Prod.snd h

/-! ## Claim theorems -/

/-- Claim C5 (confirmed): when the underlying compression step reports an
error, the Code Compressor signals a fatal error carrying exactly that
error's detail and returns no code; it never falls back to the
uncompressed or partially processed input. -/
theorem minify_error_propagates (u : String → UglifyConfig → UglifyResult)
    (t : String → String) (js : String) (o : MinifyOptions) (e : String)
    (h : (u (if o.babelTranspile then t js else js) (minifyConfig o)).error = some e) :
    minify u t js o = Except.error e := by
  unfold minify
  dsimp only
  rw [h]

/-- Witness for C5 at a concrete always-failing compressor. -/
theorem minify_error_propagates_witness :
    minify (fun _ _ => { error := some "boom", code := "" }) (fun s => s) "x" {} =
      Except.error "boom" :=
  minify_error_propagates (fun _ _ => { error := some "boom", code := "" })
    (fun s => s) "x" {} "boom" rfl

/-- Counterexample to claim C3: the post-fix is a JavaScript
`String.prototype.replace` with a string pattern, which replaces only the
FIRST occurrence of U+000B.  With a compressor output containing the
character twice, the returned code still contains a raw U+000B, so the
returned string does not "never contain" it. -/
theorem minify_ctrlchar_counterexample :
    minify (fun _ _ => { error := none, code := "\x0B\x0B" }) (fun s => s) "" {} =
      Except.ok "\\x0B\x0B" ∧
    '\x0B' ∈ ("\\x0B\x0B" : String).data := by
  constructor
  · rfl
  · decide

/-- Claim C3 (amended): after compressing and optional mangling, the Code
Compressor replaces the FIRST occurrence of the control character U+000B
in the compressor's output with its escaped form `\x0B`; consequently the
number of raw occurrences drops by one, and whenever the compressor's
output contains at most one occurrence the returned code contains none. -/
theorem minify_ctrlchar_amended (u : String → UglifyConfig → UglifyResult)
    (t : String → String) (js : String) (o : MinifyOptions) (code : String)
    (h : u (if o.babelTranspile then t js else js) (minifyConfig o) =
      { error := none, code := code }) :
    minify u t js o = Except.ok (jsReplaceFirst "\x0B" "\\x0B" code) ∧
    (jsReplaceFirst "\x0B" "\\x0B" code).data.count '\x0B' = code.data.count '\x0B' - 1 ∧
    (code.data.count '\x0B' ≤ 1 → '\x0B' ∉ (jsReplaceFirst "\x0B" "\\x0B" code).data) := by
  have hcount : (jsReplaceFirst "\x0B" "\\x0B" code).data.count '\x0B' =
      code.data.count '\x0B' - 1 :=
    count_replaceFirstAux_single '\x0B' ("\\x0B" : String).data (by decide) code.data
  refine ⟨?_, hcount, ?_⟩
  · unfold minify
    dsimp only
    rw [h]
  · intro hle
    have : (jsReplaceFirst "\x0B" "\\x0B" code).data.count '\x0B' = 0 := by
      omega
    exact List.count_eq_zero.mp this

/-- Witness for the amended C3 at a compressor output holding exactly one
U+000B: the returned code holds none. -/
theorem minify_ctrlchar_amended_witness :
    minify (fun _ _ => { error := none, code := "a\x0Bb" }) (fun s => s) "" {} =
      Except.ok (jsReplaceFirst "\x0B" "\\x0B" "a\x0Bb") ∧
    '\x0B' ∉ (jsReplaceFirst "\x0B" "\\x0B" "a\x0Bb").data :=
  ⟨(minify_ctrlchar_amended (fun _ _ => { error := none, code := "a\x0Bb" })
      (fun s => s) "" {} "a\x0Bb" rfl).1,
   (minify_ctrlchar_amended (fun _ _ => { error := none, code := "a\x0Bb" })
      (fun s => s) "" {} "a\x0Bb" rfl).2.2 (by decide)⟩

/-- Counterexample to claim C1: for brand 'phet-io' the debug preload
fragments are produced by `minify( js, \x7b mangle: true \x7d )`, whose
`stripAssertions`/`stripLogging` options DEFAULT TO TRUE, so the assertion
and logging globals ARE bound to false — unlike the claimed
stripping-disabled call.  Under a compressor that reflects whether any
global_defs were configured, the two calls produce different fragments. -/
theorem debugPreloads_strip_counterexample :
    debugPreloadsOf testEnv { testReq with brand := "phet-io" }
        (rawPreloadsOf testEnv { testReq with brand := "phet-io" }) =
      Except.ok ["F+strip"] ∧
    exceptMapM (fun js => minify testEnv.uglifyMinify testEnv.transpile js
        { mangle := true, stripAssertions := false, stripLogging := false })
        (rawPreloadsOf testEnv { testReq with brand := "phet-io" }) =
      Except.ok ["F+nostrip"] ∧
    (Except.ok ["F+strip"] : Except String (List String)) ≠ Except.ok ["F+nostrip"] := by
  refine ⟨by decide, by decide, by decide⟩

/-- Claim C1 (amended): for brand 'phet-io' every debug preload fragment
is the Code Compressor applied to the raw preload text with mangling
enabled and with the DEFAULT stripping left on (assertion and logging
globals bound to false); for every other brand the debug preload fragments
are the raw preload texts unmodified, regardless of the compress flag. -/
theorem debugPreloads_characterization (env : Env) (r : BuildRequest)
    (rawPreloads : List String) :
    (r.brand = "phet-io" →
      debugPreloadsOf env r rawPreloads =
        exceptMapM (fun js => minify env.uglifyMinify env.transpile js
          { mangle := true, babelTranspile := false,
            stripAssertions := true, stripLogging := true }) rawPreloads) ∧
    (r.brand ≠ "phet-io" → debugPreloadsOf env r rawPreloads = Except.ok rawPreloads) := by
  constructor
  · intro h
    unfold debugPreloadsOf
    simp [h]
  · intro h
    have hb : (r.brand == "phet-io") = false := by
      simp [h]
    unfold debugPreloadsOf
    simp only [hb, Bool.false_eq_true, if_false]
    exact exceptMapM_ok_id rawPreloads

/-- Witness for the amended C1: both branches at concrete inputs. -/
theorem debugPreloads_characterization_witness :
    debugPreloadsOf testEnv { testReq with brand := "phet-io" } ["F"] =
      exceptMapM (fun js => minify testEnv.uglifyMinify testEnv.transpile js
        { mangle := true, babelTranspile := false,
          stripAssertions := true, stripLogging := true }) ["F"] ∧
    debugPreloadsOf testEnv testReq ["F"] = Except.ok ["F"] :=
  ⟨(debugPreloads_characterization testEnv { testReq with brand := "phet-io" } ["F"]).1 rfl,
   (debugPreloads_characterization testEnv testReq ["F"]).2 (by decide)⟩

/-- Claim C6 (confirmed): the production code artifact is the Code
Compressor applied to the raw module bundle (with the caller's mangle
flag, transpilation first, default stripping) exactly when compression is
requested, and is the raw bundle itself when compression is disabled; the
debug code artifact is the Code Compressor applied with stripping disabled
(and forced mangling and transpilation) for the restricted brand
'phet-io', and is the raw bundle for every other brand. -/
theorem codeArtifacts_characterization (env : Env) (r : BuildRequest) (requireJS : String) :
    (r.uglify = true →
      productionJSOf env r requireJS =
        minify env.uglifyMinify env.transpile requireJS
          { mangle := r.mangle, babelTranspile := true,
            stripAssertions := true, stripLogging := true }) ∧
    (r.uglify = false → productionJSOf env r requireJS = Except.ok requireJS) ∧
    (r.brand = "phet-io" →
      debugJSOf env r requireJS =
        minify env.uglifyMinify env.transpile requireJS
          { mangle := true, babelTranspile := true,
            stripAssertions := false, stripLogging := false }) ∧
    (r.brand ≠ "phet-io" → debugJSOf env r requireJS = Except.ok requireJS) := by
  refine ⟨fun h => ?_, fun h => ?_, fun h => ?_, fun h => ?_⟩
  · unfold productionJSOf
    simp [h]
  · unfold productionJSOf
    simp [h]
  · unfold debugJSOf
    simp [h]
  · have hb : (r.brand == "phet-io") = false := by
      simp [h]
    unfold debugJSOf
    simp [hb]

/-- Witness for C6: all four branches at concrete inputs. -/
theorem codeArtifacts_characterization_witness :
    (productionJSOf testEnv { testReq with uglify := true } "J" =
      minify testEnv.uglifyMinify testEnv.transpile "J"
        { mangle := false, babelTranspile := true,
          stripAssertions := true, stripLogging := true }) ∧
    (productionJSOf testEnv testReq "J" = Except.ok "J") ∧
    (debugJSOf testEnv { testReq with brand := "phet-io" } "J" =
      minify testEnv.uglifyMinify testEnv.transpile "J"
        { mangle := true, babelTranspile := true,
          stripAssertions := false, stripLogging := false }) ∧
    (debugJSOf testEnv testReq "J" = Except.ok "J") :=
  ⟨(codeArtifacts_characterization testEnv { testReq with uglify := true } "J").1 rfl,
   (codeArtifacts_characterization testEnv testReq "J").2.1 rfl,
   (codeArtifacts_characterization testEnv { testReq with brand := "phet-io" } "J").2.2.1 rfl,
   (codeArtifacts_characterization testEnv testReq "J").2.2.2 (by decide)⟩

/-- Claim C4 (confirmed): when a precondition fails (brand outside the
enumerated set, or restricted brand without the sibling '../phet-io'
checkout) or the fallback-locale string table lacks a (non-empty) title
entry, the build aborts with an error and with the written-file list
empty: no output file or directory is created.  The JavaScript `typeof`
preconditions on the `repo`/`uglify`/`mangle` parameters hold by
construction in this typed embedding. -/
theorem build_aborts_before_writes (env : Env) (r : BuildRequest)
    (h : ChipperConstants.BRANDS.contains r.brand = false ∨
         (r.brand = "phet-io" ∧ env.fileExists "../phet-io" = false) ∨
         englishTitleOf env r = none ∨ englishTitleOf env r = some "") :
    ∃ e, buildRunnable env r = ([], some e) := by
  rcases hr : buildRunnable env r with ⟨files, err⟩
  cases err with
  | none =>
    exfalso
    obtain ⟨pJS, dJS, pPre, dPre, t, _, _, _, _, htitle, hne, hcontains, hio, _⟩ :=
      buildRunnable_ok_inv env r files hr
    rcases h with h | ⟨h1, h2⟩ | h | h
    · rw [h] at hcontains
      cases hcontains
    · rw [h1, h2] at hio
      simp at hio
    · rw [h] at htitle
      cases htitle
    · rw [h] at htitle
      injection htitle with ht
      rw [← ht] at hne
      simp at hne
  | some e =>
    have hfiles := buildRunnable_error_inv env r files e hr
    subst hfiles
    exact ⟨e, rfl⟩

/-- Witness for C4: a concrete environment whose fallback table lacks the
title key aborts with no file written. -/
theorem build_aborts_before_writes_witness :
    ∃ e, buildRunnable envNoTitle testReq = ([], some e) :=
  build_aborts_before_writes envNoTitle testReq (Or.inr (Or.inr (Or.inl (by decide))))

/-- Claim C2 (confirmed): every successful build — for every combination
of the uglify/mangle/instrument/allHTML flags and every brand — writes the
combined-all-locales debug artifact `(buildDir)/(repo)_all_(brand)_debug.html`,
whose script list is composed from the debug code artifact and the debug
preload fragments around a debug-mode, all-locales initialization script. -/
theorem debug_artifact_always_written (env : Env) (r : BuildRequest) (files : List WrittenFile)
    (h : buildRunnable env r = (files, none)) :
    ∃ debugJS debugPreloads htmlHeader,
      debugJSOf env r (requireJSOf env r) = Except.ok debugJS ∧
      debugPreloadsOf env r (rawPreloadsOf env r) = Except.ok debugPreloads ∧
      (buildDirOf r ++ "/" ++ r.repo ++ "_all_" ++ r.brand ++ "_debug.html",
        FileContent.runnableHtml
          { repo := r.repo
            stringMap := stringMapOf env r
            htmlHeader := htmlHeader
            locale := ChipperConstants.FALLBACK_LOCALE
            scripts := scriptsFor
              (initOptsOf env r (makeTimestamp env.nowISO)
                ChipperConstants.FALLBACK_LOCALE true true)
              (splashScriptOf env r) env.buildMipmaps debugPreloads
              (chipperStringsScriptOf env) debugJS }) ∈ files := by
  obtain ⟨pJS, dJS, pPre, dPre, t, hp, hd, hpp, hdp, ht, hne, _, _, hfiles⟩ :=
    buildRunnable_ok_inv env r files h
  subst hfiles
  refine ⟨dJS, dPre,
    htmlHeaderOf r t (env.readPackageJSON r.repo).version env.currentYear, hd, hdp, ?_⟩
  simp [assembleFiles, debugFileOf, List.mem_cons, List.mem_append]

set_option maxRecDepth 100000 in
/-- Witness for C2: the debug artifact of a concrete successful build. -/
theorem debug_artifact_always_written_witness :
    ∃ debugJS debugPreloads htmlHeader,
      debugJSOf testEnv testReq (requireJSOf testEnv testReq) = Except.ok debugJS ∧
      debugPreloadsOf testEnv testReq (rawPreloadsOf testEnv testReq) =
        Except.ok debugPreloads ∧
      (buildDirOf testReq ++ "/" ++ testReq.repo ++ "_all_" ++ testReq.brand ++ "_debug.html",
        FileContent.runnableHtml
          { repo := testReq.repo
            stringMap := stringMapOf testEnv testReq
            htmlHeader := htmlHeader
            locale := ChipperConstants.FALLBACK_LOCALE
            scripts := scriptsFor
              (initOptsOf testEnv testReq (makeTimestamp testEnv.nowISO)
                ChipperConstants.FALLBACK_LOCALE true true)
              (splashScriptOf testEnv testReq) testEnv.buildMipmaps debugPreloads
              (chipperStringsScriptOf testEnv) debugJS }) ∈
        (buildRunnable testEnv testReq).1 :=
  debug_artifact_always_written testEnv testReq (buildRunnable testEnv testReq).1 (by decide)

/-- Claim C7 (confirmed): the per-locale artifact loop writes nothing when
the brand is the restricted 'phet-io'; for every other brand it emits
exactly one `(repo)_(locale)_(brand).html` per resolved locale, composed
from the production code artifact, the production preload fragments, and
non-debug single-locale initialization metadata; and in a successful
non-restricted build each of those artifacts is among the written files. -/
theorem perLocale_artifacts_characterization (env : Env) (r : BuildRequest)
    (timestamp productionJS : String) (productionPreloads : List String)
    (htmlHeader : String) :
    (r.brand = "phet-io" →
      perLocaleFilesOf env r timestamp productionJS productionPreloads htmlHeader = []) ∧
    (r.brand ≠ "phet-io" →
      perLocaleFilesOf env r timestamp productionJS productionPreloads htmlHeader =
        (localesOf env r).map (fun locale =>
          (buildDirOf r ++ "/" ++ r.repo ++ "_" ++ locale ++ "_" ++ r.brand ++ ".html",
            FileContent.runnableHtml
              { repo := r.repo
                stringMap := stringMapOf env r
                htmlHeader := htmlHeader
                locale := locale
                scripts := scriptsFor (initOptsOf env r timestamp locale false false)
                  (splashScriptOf env r) env.buildMipmaps productionPreloads
                  (chipperStringsScriptOf env) productionJS }))) ∧
    (∀ files pJS pPre, buildRunnable env r = (files, none) →
      productionJSOf env r (requireJSOf env r) = Except.ok pJS →
      productionPreloadsOf env r (rawPreloadsOf env r) = Except.ok pPre →
      r.brand ≠ "phet-io" →
      ∀ locale ∈ localesOf env r, ∃ hdr,
        (buildDirOf r ++ "/" ++ r.repo ++ "_" ++ locale ++ "_" ++ r.brand ++ ".html",
          FileContent.runnableHtml
            { repo := r.repo
              stringMap := stringMapOf env r
              htmlHeader := hdr
              locale := locale
              scripts := scriptsFor
                (initOptsOf env r (makeTimestamp env.nowISO) locale false false)
                (splashScriptOf env r) env.buildMipmaps pPre
                (chipperStringsScriptOf env) pJS }) ∈ files) := by
  refine ⟨fun h => ?_, fun h => ?_, ?_⟩
  · unfold perLocaleFilesOf
    simp [h]
  · have hb : (r.brand != "phet-io") = true := by
      simp [bne, h]
    unfold perLocaleFilesOf
    simp only [hb, if_true]
    rfl
  · intro files pJS pPre hok hp hpp hbrand locale hlocale
    obtain ⟨pJS2, dJS, pPre2, dPre, t, hp2, hd2, hpp2, hdp2, ht, hne, _, _, hfiles⟩ :=
      buildRunnable_ok_inv env r files hok
    rw [hp] at hp2
    rw [hpp] at hpp2
    injection hp2 with hp2
    injection hpp2 with hpp2
    subst hp2
    subst hpp2
    subst hfiles
    refine ⟨htmlHeaderOf r t (env.readPackageJSON r.repo).version env.currentYear, ?_⟩
    have hb : (r.brand != "phet-io") = true := by
      simp [bne, hbrand]
    unfold assembleFiles
    apply List.mem_cons_of_mem
    apply List.mem_append_left
    apply List.mem_append_left
    apply List.mem_append_left
    apply List.mem_append_left
    apply List.mem_append_left
    apply List.mem_append_left
    apply List.mem_append_left
    unfold perLocaleFilesOf
    rw [hb]
    simp only [if_true]
    exact List.mem_map.mpr ⟨locale, hlocale, rfl⟩

set_option maxRecDepth 100000 in
/-- Witness for C7: all three branches at concrete inputs. -/
theorem perLocale_artifacts_characterization_witness :
    perLocaleFilesOf testEnv { testReq with brand := "phet-io" } "ts" "P" ["Q"] "H" = [] ∧
    perLocaleFilesOf testEnv testReq "ts" "P" ["Q"] "H" =
      (localesOf testEnv testReq).map (fun locale =>
        (buildDirOf testReq ++ "/" ++ testReq.repo ++ "_" ++ locale ++ "_" ++
            testReq.brand ++ ".html",
          FileContent.runnableHtml
            { repo := testReq.repo
              stringMap := stringMapOf testEnv testReq
              htmlHeader := "H"
              locale := locale
              scripts := scriptsFor (initOptsOf testEnv testReq "ts" locale false false)
                (splashScriptOf testEnv testReq) testEnv.buildMipmaps ["Q"]
                (chipperStringsScriptOf testEnv) "P" })) ∧
    (∃ hdr,
      (buildDirOf testReq ++ "/" ++ testReq.repo ++ "_en_" ++ testReq.brand ++ ".html",
        FileContent.runnableHtml
          { repo := testReq.repo
            stringMap := stringMapOf testEnv testReq
            htmlHeader := hdr
            locale := "en"
            scripts := scriptsFor
              (initOptsOf testEnv testReq (makeTimestamp testEnv.nowISO) "en" false false)
              (splashScriptOf testEnv testReq) testEnv.buildMipmaps ["F"]
              (chipperStringsScriptOf testEnv) "REQUIREJS" }) ∈
        (buildRunnable testEnv testReq).1) := by
  refine ⟨(perLocale_artifacts_characterization testEnv
      { testReq with brand := "phet-io" } "ts" "P" ["Q"] "H").1 rfl,
    (perLocale_artifacts_characterization testEnv testReq "ts" "P" ["Q"] "H").2.1
      (by decide), ?_⟩
  have hmem := (perLocale_artifacts_characterization testEnv testReq "x" "x" [] "x").2.2
    (buildRunnable testEnv testReq).1 "REQUIREJS" ["F"] (by decide) (by decide) (by decide)
    (by decide) "en" (by decide)
  have hpath : buildDirOf testReq ++ "/" ++ testReq.repo ++ "_" ++ "en" ++ "_" ++
      testReq.brand ++ ".html" =
      buildDirOf testReq ++ "/" ++ testReq.repo ++ "_en_" ++ testReq.brand ++ ".html" := by
    decide
  rw [hpath] at hmem
  exact hmem

/-- Claim C8 (confirmed): the combined all-locales artifact
`(repo)_all_(brand).html` is emitted precisely when the caller requested
the combined artifact (`allHTML`) or the brand is the restricted
'phet-io'; when emitted, it is composed from the production code artifact,
the production preload fragments, and a non-debug, all-locales
initialization script, and it is among the written files of a successful
build. -/
theorem allHTML_artifact_characterization (env : Env) (r : BuildRequest)
    (timestamp productionJS : String) (productionPreloads : List String)
    (htmlHeader : String) :
    (allHTMLFilesOf env r timestamp productionJS productionPreloads htmlHeader ≠ [] ↔
      (r.allHTML = true ∨ r.brand = "phet-io")) ∧
    (r.allHTML = true ∨ r.brand = "phet-io" →
      allHTMLFilesOf env r timestamp productionJS productionPreloads htmlHeader =
        [(buildDirOf r ++ "/" ++ r.repo ++ "_all_" ++ r.brand ++ ".html",
          FileContent.runnableHtml
            { repo := r.repo
              stringMap := stringMapOf env r
              htmlHeader := htmlHeader
              locale := ChipperConstants.FALLBACK_LOCALE
              scripts := scriptsFor
                (initOptsOf env r timestamp ChipperConstants.FALLBACK_LOCALE true false)
                (splashScriptOf env r) env.buildMipmaps productionPreloads
                (chipperStringsScriptOf env) productionJS })]) ∧
    (∀ files pJS pPre, buildRunnable env r = (files, none) →
      productionJSOf env r (requireJSOf env r) = Except.ok pJS →
      productionPreloadsOf env r (rawPreloadsOf env r) = Except.ok pPre →
      r.allHTML = true ∨ r.brand = "phet-io" →
      ∃ hdr,
        (buildDirOf r ++ "/" ++ r.repo ++ "_all_" ++ r.brand ++ ".html",
          FileContent.runnableHtml
            { repo := r.repo
              stringMap := stringMapOf env r
              htmlHeader := hdr
              locale := ChipperConstants.FALLBACK_LOCALE
              scripts := scriptsFor
                (initOptsOf env r (makeTimestamp env.nowISO)
                  ChipperConstants.FALLBACK_LOCALE true false)
                (splashScriptOf env r) env.buildMipmaps pPre
                (chipperStringsScriptOf env) pJS }) ∈ files) := by
  have hcond : ((r.allHTML || r.brand == "phet-io") = true) ↔
      (r.allHTML = true ∨ r.brand = "phet-io") := by
    simp
  refine ⟨?_, fun h => ?_, ?_⟩
  · unfold allHTMLFilesOf
    by_cases h : r.allHTML = true ∨ r.brand = "phet-io"
    · rw [if_pos (hcond.mpr h)]
      simp [h]
    · rw [if_neg (fun hc => h (hcond.mp hc))]
      simp [h]
  · unfold allHTMLFilesOf
    rw [if_pos (hcond.mpr h)]
  · intro files pJS pPre hok hp hpp h
    obtain ⟨pJS2, dJS, pPre2, dPre, t, hp2, hd2, hpp2, hdp2, ht, hne, _, _, hfiles⟩ :=
      buildRunnable_ok_inv env r files hok
    rw [hp] at hp2
    rw [hpp] at hpp2
    injection hp2 with hp2
    injection hpp2 with hpp2
    subst hp2
    subst hpp2
    subst hfiles
    refine ⟨htmlHeaderOf r t (env.readPackageJSON r.repo).version env.currentYear, ?_⟩
    unfold assembleFiles
    apply List.mem_cons_of_mem
    apply List.mem_append_left
    apply List.mem_append_left
    apply List.mem_append_left
    apply List.mem_append_left
    apply List.mem_append_left
    apply List.mem_append_left
    apply List.mem_append_right
    unfold allHTMLFilesOf
    rw [if_pos (hcond.mpr h)]
    exact List.mem_singleton.mpr rfl

set_option maxRecDepth 100000 in
/-- Witness for C8: all branches at concrete inputs (a 'phet-io' request,
for which the combined artifact is forced). -/
theorem allHTML_artifact_characterization_witness :
    (allHTMLFilesOf testEnv { testReq with brand := "phet-io" } "ts" "P" ["Q"] "H" ≠ [] ↔
      (BuildRequest.allHTML { testReq with brand := "phet-io" } = true ∨
        BuildRequest.brand { testReq with brand := "phet-io" } = "phet-io")) ∧
    allHTMLFilesOf testEnv { testReq with brand := "phet-io" } "ts" "P" ["Q"] "H" =
      [(buildDirOf { testReq with brand := "phet-io" } ++ "/" ++ testReq.repo ++ "_all_" ++
          BuildRequest.brand { testReq with brand := "phet-io" } ++ ".html",
        FileContent.runnableHtml
          { repo := testReq.repo
            stringMap := stringMapOf testEnv { testReq with brand := "phet-io" }
            htmlHeader := "H"
            locale := ChipperConstants.FALLBACK_LOCALE
            scripts := scriptsFor
              (initOptsOf testEnv { testReq with brand := "phet-io" } "ts"
                ChipperConstants.FALLBACK_LOCALE true false)
              (splashScriptOf testEnv { testReq with brand := "phet-io" })
              testEnv.buildMipmaps ["Q"]
              (chipperStringsScriptOf testEnv) "P" })] ∧
    (∃ hdr,
      (buildDirOf { testReq with brand := "phet-io" } ++ "/" ++ testReq.repo ++ "_all_" ++
          BuildRequest.brand { testReq with brand := "phet-io" } ++ ".html",
        FileContent.runnableHtml
          { repo := testReq.repo
            stringMap := stringMapOf testEnv { testReq with brand := "phet-io" }
            htmlHeader := hdr
            locale := ChipperConstants.FALLBACK_LOCALE
            scripts := scriptsFor
              (initOptsOf testEnv { testReq with brand := "phet-io" }
                (makeTimestamp testEnv.nowISO) ChipperConstants.FALLBACK_LOCALE true false)
              (splashScriptOf testEnv { testReq with brand := "phet-io" })
              testEnv.buildMipmaps ["F"]
              (chipperStringsScriptOf testEnv) "REQUIREJS" }) ∈
        (buildRunnable testEnv { testReq with brand := "phet-io" }).1) :=
  ⟨(allHTML_artifact_characterization testEnv { testReq with brand := "phet-io" }
      "ts" "P" ["Q"] "H").1,
   (allHTML_artifact_characterization testEnv { testReq with brand := "phet-io" }
      "ts" "P" ["Q"] "H").2.1 (Or.inr rfl),
   (allHTML_artifact_characterization testEnv { testReq with brand := "phet-io" }
      "x" "x" [] "x").2.2
     (buildRunnable testEnv { testReq with brand := "phet-io" }).1
     "REQUIREJS" ["F"] (by decide) (by decide) (by decide) (Or.inr rfl)⟩

/-- Membership in a conditionally-empty list implies membership in the
non-empty branch. -/
theorem mem_of_mem_ite_nil {α : Type} {c : Prop} [Decidable c] {l : List α} {a : α}
    (h : a ∈ (if c then l else [])) : a ∈ l := by
  split at h
  · exact h
  · cases h

/-- Claim C9 (confirmed): in every produced artifact's composed script
sequence — per-locale, combined, debug, and the ePub/XHTML packaging — the
scripts are the fixed sequence `scriptsFor`: the initialization script
first, the splash script second, the mipmaps script third, then the
preload fragments, then the shared string-accessor script, and the main
code artifact last.  The final conjunct pins the positions: the
string-accessor fragment and the main code artifact are the two last
elements in that order, so the string-accessor, initialization and splash
scripts all appear before the main code artifact. -/
theorem script_order_invariant (env : Env) (r : BuildRequest) (files : List WrittenFile)
    (h : buildRunnable env r = (files, none)) :
    (∀ p cfg, (p, FileContent.runnableHtml cfg) ∈ files →
      ∃ opts preloads mainJS, cfg.scripts =
        scriptsFor opts (splashScriptOf env r) env.buildMipmaps preloads
          (chipperStringsScriptOf env) mainJS) ∧
    (∀ p cfg, (p, FileContent.xhtmlBundle cfg) ∈ files →
      ∃ opts preloads mainJS, cfg.scripts =
        scriptsFor opts (splashScriptOf env r) env.buildMipmaps preloads
          (chipperStringsScriptOf env) mainJS) ∧
    (∀ opts sp mi (pre : List String) cs mj,
      (scriptsFor opts sp mi pre cs mj).head? = some (Script.init opts) ∧
      (scriptsFor opts sp mi pre cs mj).drop (pre.length + 3) =
        [Script.text cs, Script.text mj]) := by
  obtain ⟨pJS, dJS, pPre, dPre, t, hp, hd, hpp, hdp, ht, hne, _, _, hfiles⟩ :=
    buildRunnable_ok_inv env r files h
  subst hfiles
  refine ⟨?_, ?_, ?_⟩
  · intro p cfg hmem
    simp only [assembleFiles, List.mem_cons, List.mem_append, List.mem_singleton,
      List.mem_nil_iff, or_false] at hmem
    rcases hmem with hmem | hmem
    · simp at hmem
    rcases hmem with ((((((hmem | hmem) | hmem) | hmem) | hmem) | hmem) | hmem) | hmem
    · have hmem := mem_of_mem_ite_nil (l := (localesOf env r).map _) hmem
      obtain ⟨locale, _, heq⟩ := List.mem_map.mp hmem
      simp only [perLocaleFile, Prod.mk.injEq, FileContent.runnableHtml.injEq] at heq
      obtain ⟨-, hcfg⟩ := heq
      subst hcfg
      exact ⟨_, pPre, pJS, rfl⟩
    · have hmem := mem_of_mem_ite_nil
        (l := [(buildDirOf r ++ "/" ++ r.repo ++ "_all_" ++ r.brand ++ ".html", _)]) hmem
      rw [List.mem_singleton] at hmem
      simp only [Prod.mk.injEq, FileContent.runnableHtml.injEq] at hmem
      obtain ⟨-, hcfg⟩ := hmem
      subst hcfg
      exact ⟨_, pPre, pJS, rfl⟩
    · simp only [List.mem_singleton, debugFileOf, Prod.mk.injEq,
        FileContent.runnableHtml.injEq] at hmem
      obtain ⟨-, hcfg⟩ := hmem
      subst hcfg
      exact ⟨_, dPre, dJS, rfl⟩
    · simp [xhtmlFilesOf, Prod.mk.injEq] at hmem
    · simp [dependenciesFileOf, Prod.mk.injEq] at hmem
    · have hmem := mem_of_mem_ite_nil
        (c := ((localesOf env r).contains ChipperConstants.FALLBACK_LOCALE &&
          r.brand == "phet") = true) hmem
      obtain ⟨locale, _, heq⟩ := List.mem_map.mp hmem
      simp [Prod.mk.injEq] at heq
    · have hmem := mem_of_mem_ite_nil
        (c := ((env.readPackageJSON r.repo).phet.accessible && r.brand == "phet") = true) hmem
      simp [Prod.mk.injEq] at hmem
    · have hmem := mem_of_mem_ite_nil
        (c := env.fileExists ("../" ++ r.repo ++ "/assets/" ++ r.repo ++
          "-screenshot.png") = true) hmem
      rcases List.mem_append.mp hmem with hmem | hmem
      · obtain ⟨s, _, heq⟩ := List.mem_map.mp hmem
        simp [Prod.mk.injEq] at heq
      · have hmem := mem_of_mem_ite_nil
          (c := (r.brand == "phet") = true) hmem
        simp [Prod.mk.injEq] at hmem
  · intro p cfg hmem
    simp only [assembleFiles, List.mem_cons, List.mem_append, List.mem_singleton,
      List.mem_nil_iff, or_false] at hmem
    rcases hmem with hmem | hmem
    · simp at hmem
    rcases hmem with ((((((hmem | hmem) | hmem) | hmem) | hmem) | hmem) | hmem) | hmem
    · have hmem := mem_of_mem_ite_nil (l := (localesOf env r).map _) hmem
      obtain ⟨locale, _, heq⟩ := List.mem_map.mp hmem
      simp [perLocaleFile, Prod.mk.injEq] at heq
    · have hmem := mem_of_mem_ite_nil
        (l := [(buildDirOf r ++ "/" ++ r.repo ++ "_all_" ++ r.brand ++ ".html", _)]) hmem
      rw [List.mem_singleton] at hmem
      simp [Prod.mk.injEq] at hmem
    · simp [List.mem_singleton, debugFileOf, Prod.mk.injEq] at hmem
    · simp only [xhtmlFilesOf, List.mem_cons, Prod.mk.injEq,
        FileContent.xhtmlBundle.injEq, List.mem_singleton] at hmem
      rcases hmem with ⟨-, hcfg⟩ | hmem
      · cases hcfg
      rcases hmem with ⟨-, hcfg⟩ | hmem
      · subst hcfg
        exact ⟨_, pPre, pJS, rfl⟩
      · cases hmem
    · simp [dependenciesFileOf, Prod.mk.injEq] at hmem
    · have hmem := mem_of_mem_ite_nil
        (c := ((localesOf env r).contains ChipperConstants.FALLBACK_LOCALE &&
          r.brand == "phet") = true) hmem
      obtain ⟨locale, _, heq⟩ := List.mem_map.mp hmem
      simp [Prod.mk.injEq] at heq
    · have hmem := mem_of_mem_ite_nil
        (c := ((env.readPackageJSON r.repo).phet.accessible && r.brand == "phet") = true) hmem
      simp [Prod.mk.injEq] at hmem
    · have hmem := mem_of_mem_ite_nil
        (c := env.fileExists ("../" ++ r.repo ++ "/assets/" ++ r.repo ++
          "-screenshot.png") = true) hmem
      rcases List.mem_append.mp hmem with hmem | hmem
      · obtain ⟨s, _, heq⟩ := List.mem_map.mp hmem
        simp [Prod.mk.injEq] at heq
      · have hmem := mem_of_mem_ite_nil
          (c := (r.brand == "phet") = true) hmem
        simp [Prod.mk.injEq] at hmem
  · intro opts sp mi pre cs mj
    constructor
    · rfl
    · show (scriptsFor opts sp mi pre cs mj).drop (pre.length + 3) = _
      simp only [scriptsFor, List.drop_succ_cons]
      rw [← List.length_map pre Script.text]
      exact List.drop_left _ _

set_option maxRecDepth 1000000 in
/-- Witness for C9: the debug artifact of a concrete successful build has
the fixed script shape, and the two last fragments of a concrete script
sequence are the string accessor followed by the main code artifact. -/
theorem script_order_invariant_witness :
    (∃ opts preloads mainJS,
      PackageRunnableConfig.scripts
        { repo := testReq.repo
          stringMap := stringMapOf testEnv testReq
          htmlHeader := htmlHeaderOf testReq "Example Title" "1.0.0" "2025"
          locale := ChipperConstants.FALLBACK_LOCALE
          scripts := scriptsFor
            (initOptsOf testEnv testReq (makeTimestamp testEnv.nowISO)
              ChipperConstants.FALLBACK_LOCALE true true)
            (splashScriptOf testEnv testReq) testEnv.buildMipmaps ["F"]
            (chipperStringsScriptOf testEnv) "REQUIREJS" } =
        scriptsFor opts (splashScriptOf testEnv testReq) testEnv.buildMipmaps preloads
          (chipperStringsScriptOf testEnv) mainJS) ∧
    ((scriptsFor (initOptsOf testEnv testReq "t" "en" false false) "sp" "mi" ["p1", "p2"]
        "cs" "mj").drop (["p1", "p2"].length + 3) =
      [Script.text "cs", Script.text "mj"]) :=
  ⟨(script_order_invariant testEnv testReq (buildRunnable testEnv testReq).1 (by decide)).1
      (buildDirOf testReq ++ "/" ++ testReq.repo ++ "_all_" ++ testReq.brand ++ "_debug.html")
      _ (by decide),
   ((script_order_invariant testEnv testReq (buildRunnable testEnv testReq).1 (by decide)).2.2
      (initOptsOf testEnv testReq "t" "en" false false) "sp" "mi" ["p1", "p2"] "cs" "mj").2⟩

/-! ## Clock-dependence lemmas for C10 -/

/-- Overriding the clock readings leaves every other collaborator alone. -/
theorem withClock_fileExists (env : Env) (n y : String) :
    (withClock env n y).fileExists = env.fileExists := rfl

/-- The overridden ISO clock reading. -/
theorem withClock_nowISO (env : Env) (n y : String) :
    (withClock env n y).nowISO = n := rfl

/-- The overridden current-year reading. -/
theorem withClock_currentYear (env : Env) (n y : String) :
    (withClock env n y).currentYear = y := rfl

/-- package.json resolution ignores the clock. -/
theorem withClock_readPackageJSON (env : Env) (n y : String) :
    (withClock env n y).readPackageJSON = env.readPackageJSON := rfl

/-- The module bundle ignores the clock. -/
theorem requireJSOf_withClock (env : Env) (n y : String) (r : BuildRequest) :
    requireJSOf (withClock env n y) r = requireJSOf env r := rfl

/-- The production code artifact ignores the clock. -/
theorem productionJSOf_withClock (env : Env) (n y : String) (r : BuildRequest) (j : String) :
    productionJSOf (withClock env n y) r j = productionJSOf env r j := rfl

/-- The debug code artifact ignores the clock. -/
theorem debugJSOf_withClock (env : Env) (n y : String) (r : BuildRequest) (j : String) :
    debugJSOf (withClock env n y) r j = debugJSOf env r j := rfl

/-- The raw preloads ignore the clock. -/
theorem rawPreloadsOf_withClock (env : Env) (n y : String) (r : BuildRequest) :
    rawPreloadsOf (withClock env n y) r = rawPreloadsOf env r := rfl

/-- The production preloads ignore the clock. -/
theorem productionPreloadsOf_withClock (env : Env) (n y : String) (r : BuildRequest)
    (raws : List String) :
    productionPreloadsOf (withClock env n y) r raws = productionPreloadsOf env r raws := rfl

/-- The debug preloads ignore the clock. -/
theorem debugPreloadsOf_withClock (env : Env) (n y : String) (r : BuildRequest)
    (raws : List String) :
    debugPreloadsOf (withClock env n y) r raws = debugPreloadsOf env r raws := rfl

/-- The resolved title ignores the clock. -/
theorem englishTitleOf_withClock (env : Env) (n y : String) (r : BuildRequest) :
    englishTitleOf (withClock env n y) r = englishTitleOf env r := rfl

/-- The title key ignores the clock. -/
theorem simTitleStringKeyOf_withClock (env : Env) (n y : String) (r : BuildRequest) :
    simTitleStringKeyOf (withClock env n y) r = simTitleStringKeyOf env r := rfl

/-- The assembled file list depends on the clock only through the
timestamp and header arguments. -/
theorem assembleFiles_withClock (env : Env) (n y : String) (r : BuildRequest)
    (ts pJS dJS : String) (pPre dPre : List String) (hdr : String) :
    assembleFiles (withClock env n y) r ts pJS dJS pPre dPre hdr =
      assembleFiles env r ts pJS dJS pPre dPre hdr := rfl

/-- Clock-scrubbed per-locale artifacts do not depend on the timestamp or
header arguments. -/
theorem scrubClock_perLocale (env : Env) (r : BuildRequest) (ts1 ts2 pJS : String)
    (pPre : List String) (hdr1 hdr2 : String) :
    (perLocaleFilesOf env r ts1 pJS pPre hdr1).map
        (fun f => (f.1, scrubContentClock f.2)) =
      (perLocaleFilesOf env r ts2 pJS pPre hdr2).map
        (fun f => (f.1, scrubContentClock f.2)) := by
  unfold perLocaleFilesOf
  split
  · simp only [List.map_map]
    congr 1
  · rfl

/-- Clock-scrubbed combined artifacts do not depend on the timestamp or
header arguments. -/
theorem scrubClock_allHTML (env : Env) (r : BuildRequest) (ts1 ts2 pJS : String)
    (pPre : List String) (hdr1 hdr2 : String) :
    (allHTMLFilesOf env r ts1 pJS pPre hdr1).map
        (fun f => (f.1, scrubContentClock f.2)) =
      (allHTMLFilesOf env r ts2 pJS pPre hdr2).map
        (fun f => (f.1, scrubContentClock f.2)) := by
  unfold allHTMLFilesOf
  split
  · rfl
  · rfl

/-- The clock-scrubbed debug artifact does not depend on the timestamp or
header arguments. -/
theorem scrubClock_debugFile (env : Env) (r : BuildRequest) (ts1 ts2 dJS : String)
    (dPre : List String) (hdr1 hdr2 : String) :
    ((debugFileOf env r ts1 dJS dPre hdr1).1,
        scrubContentClock (debugFileOf env r ts1 dJS dPre hdr1).2) =
      ((debugFileOf env r ts2 dJS dPre hdr2).1,
        scrubContentClock (debugFileOf env r ts2 dJS dPre hdr2).2) := rfl

/-- The clock-scrubbed ePub packaging does not depend on the timestamp or
header arguments. -/
theorem scrubClock_xhtml (env : Env) (r : BuildRequest) (ts1 ts2 pJS : String)
    (pPre : List String) (hdr1 hdr2 : String) :
    (xhtmlFilesOf env r ts1 pJS pPre hdr1).map
        (fun f => (f.1, scrubContentClock f.2)) =
      (xhtmlFilesOf env r ts2 pJS pPre hdr2).map
        (fun f => (f.1, scrubContentClock f.2)) := rfl

/-- The clock-scrubbed assembled file list does not depend on the
timestamp or header arguments at all. -/
theorem scrubClock_assembleFiles (env : Env) (r : BuildRequest)
    (ts1 ts2 pJS dJS : String) (pPre dPre : List String) (hdr1 hdr2 : String) :
    (assembleFiles env r ts1 pJS dJS pPre dPre hdr1).map
        (fun f => (f.1, scrubContentClock f.2)) =
      (assembleFiles env r ts2 pJS dJS pPre dPre hdr2).map
        (fun f => (f.1, scrubContentClock f.2)) := by
  unfold assembleFiles
  simp only [List.map_cons, List.map_append, List.map_nil]
  rw [scrubClock_perLocale env r ts1 ts2 pJS pPre hdr1 hdr2,
    scrubClock_allHTML env r ts1 ts2 pJS pPre hdr1 hdr2,
    scrubClock_debugFile env r ts1 ts2 dJS dPre hdr1 hdr2,
    scrubClock_xhtml env r ts1 ts2 pJS pPre hdr1 hdr2]

set_option maxRecDepth 1000000 in
/-- Counterexample to claim C10: without a frozen clock the artifacts do
NOT differ only in the embedded build timestamp — two runs whose clock
readings fall in different years also differ in the copyright year of the
header banner.  With timestamps scrubbed from both outcomes, the two
concrete runs below still differ (in every artifact's header). -/
theorem build_clock_counterexample :
    scrubTimestamps
        (buildRunnable (withClock testEnv "2025-06-01T00:00:00.000Z" "2025") testReq) ≠
      scrubTimestamps
        (buildRunnable (withClock testEnv "2026-06-01T00:00:00.000Z" "2026") testReq) := by
  decide

/-- Claim C10 (amended): the orchestrator is deterministic — two runs with
an identical BuildRequest and identical collaborator outputs and a frozen
clock produce identical artifacts (second conjunct); without a frozen
clock, the artifacts differ at most in the embedded build timestamp and
the clock-derived header banner (first conjunct: erasing those two makes
any two runs' outcomes identical). -/
theorem build_clock_determinism (env : Env) (r : BuildRequest) (n1 y1 n2 y2 : String) :
    scrubClock (buildRunnable (withClock env n1 y1) r) =
      scrubClock (buildRunnable (withClock env n2 y2) r) ∧
    (n1 = n2 → y1 = y2 →
      buildRunnable (withClock env n1 y1) r = buildRunnable (withClock env n2 y2) r) := by
  constructor
  · unfold buildRunnable
    simp only [withClock_fileExists, withClock_nowISO, withClock_currentYear,
      withClock_readPackageJSON, requireJSOf_withClock, productionJSOf_withClock,
      debugJSOf_withClock, rawPreloadsOf_withClock, productionPreloadsOf_withClock,
      debugPreloadsOf_withClock, englishTitleOf_withClock, simTitleStringKeyOf_withClock,
      assembleFiles_withClock]
    split
    · rfl
    split
    · rfl
    split
    · rfl
    split
    · rfl
    split
    · rfl
    split
    · rfl
    split
    · rfl
    split
    · rfl
    simp only [scrubClock]
    exact congrArg (fun l => (l, (none : Option BuildError)))
      (scrubClock_assembleFiles _ _ _ _ _ _ _ _ _ _)
  · intro hn hy
    subst hn
    subst hy
    rfl

set_option maxRecDepth 1000000 in
/-- Witness for the amended C10: two concrete runs in different years have
identical clock-scrubbed outcomes, and a frozen concrete clock yields
identical outcomes outright. -/
theorem build_clock_determinism_witness :
    scrubClock (buildRunnable (withClock testEnv "2025-06-01T00:00:00.000Z" "2025") testReq) =
      scrubClock (buildRunnable (withClock testEnv "2026-06-01T00:00:00.000Z" "2026") testReq) ∧
    buildRunnable (withClock testEnv "2025-01-02T03:04:05.678Z" "2025") testReq =
      buildRunnable (withClock testEnv "2025-01-02T03:04:05.678Z" "2025") testReq :=
  ⟨(build_clock_determinism testEnv testReq "2025-06-01T00:00:00.000Z" "2025"
      "2026-06-01T00:00:00.000Z" "2026").1,
   (build_clock_determinism testEnv testReq "2025-01-02T03:04:05.678Z" "2025"
      "2025-01-02T03:04:05.678Z" "2025").2 rfl rfl⟩
